import Mathlib

/-!
Verification development for the bridging and interception layer of the
metanet-desktop repository.

The definitions below are a shallow embedding of the TypeScript sources:

  * src/fetchProxy.ts        — outbound interception classifier and tunnel proxy
  * src/bridge/httpBridge.ts — background status bridge (event-channel router)
  * the capability bridge (onWalletReady) — wallet-operation router
  * src/mndHeal.ts           — health watchdog with retry and backoff

String manipulation is modelled over List Char with structural recursion so
that every definition evaluates inside the kernel; each definition carries a
comment naming the source function it embeds.  Asynchronous effects (the
Tauri invoke round trip, wallet calls, JSON parsing of opaque payloads,
timers) are modelled as explicit outcome parameters; emitted events are
modelled as returned lists.
-/

/-! ## List-of-characters string helpers

These replace the JavaScript string methods used by the sources
(startsWith, endsWith via anchored regex, includes, split, trim,
toLowerCase) with kernel-computable structural functions. -/

/-- Converts a character list back into a String. -/
def ofL (l : List Char) : String := ⟨l⟩

/-- Character-wise ASCII lower casing, as String.prototype.toLowerCase acts
on the ASCII hosts and paths matched by the sources. -/
def lowerL (l : List Char) : List Char := l.map Char.toLower

/-- Whether the first list is an initial segment of the second. -/
def leadEq : List Char → List Char → Bool
  | [], _ => true
  | _ :: _, [] => false
  | a :: as, b :: bs => a == b && leadEq as bs

/-- Splits a list at the first occurrence of a separator: returns the part
before it and the part after it, or none when the separator is absent.
Models JavaScript indexOf-based splitting. -/
def breakOn (sep : List Char) : List Char → Option (List Char × List Char)
  | [] => if sep.isEmpty then some ([], []) else none
  | c :: rest =>
    if leadEq sep (c :: rest) then some ([], (c :: rest).drop sep.length)
    else
      match breakOn sep rest with
      | some (b, a) => some (c :: b, a)
      | none => none

/-- Whether sep occurs inside l; models String.prototype.includes. -/
def containsSeq (sep l : List Char) : Bool := (breakOn sep l).isSome

/-- Whether suf is a final segment of l; models an end-anchored pattern. -/
def suffixEq (suf l : List Char) : Bool := l.drop (l.length - suf.length) == suf

/-- JavaScript-style whitespace test for trim (the persisted values the
bridge trims only ever carry these). -/
def isWs (c : Char) : Bool := c == ' ' || c == '\t' || c == '\n' || c == '\r'

/-- Models String.prototype.trim. -/
def trimL (l : List Char) : List Char :=
  ((l.dropWhile isWs).reverse.dropWhile isWs).reverse

/-- ASCII lower-case letter test, the lowered form of the regex class
[a-z] under the i flag. -/
def isLowerAZ (c : Char) : Bool := decide ('a' ≤ c) && decide (c ≤ 'z')

/-! ## URL model

Shallow embedding of the WHATWG URL constructor as the sources use it:
fetchProxy.ts builds URLs only to read protocol, hostname and pathname, and
the capability bridge reads host (hostname plus port).  The embedding
parses absolute scheme://… references; a string without a scheme separator
or with an empty host models the thrown TypeError (toURL caught it and
returned null).  Relative references, which the real constructor would
resolve against the app's own non-https localhost origin — and which
therefore classify as pass-through exactly like the none case — are folded
into none here. -/

structure UrlParts where
  scheme : String
  hostname : String
  port : String
  pathname : String
deriving Repr, DecidableEq

/-- Scheme validity: a letter followed by letters, digits, plus, minus or
dot, per the URL standard. -/
def schemeOkL (l : List Char) : Bool :=
  match l with
  | [] => false
  | c :: rest =>
    c.isAlpha && rest.all (fun d => d.isAlpha || d.isDigit || d == '+' || d == '-' || d == '.')

/-- The part of an authority after its last at sign (the host part). -/
def afterLastAt (l : List Char) : List Char :=
  if l.contains '@' then (l.reverse.takeWhile (fun c => c != '@')).reverse else l

/-- Embeds new URL(u): scheme, lowered hostname, port and pathname of an
absolute reference, or none when construction would throw. -/
def toURL (u : String) : Option UrlParts :=
  match breakOn "://".data u.data with
  | none => none
  | some (schemeL, restL) =>
    if schemeOkL schemeL then
      let authority := restL.takeWhile (fun c => !(c == '/' || c == '?' || c == '#'))
      let after := restL.drop authority.length
      let hostPort := afterLastAt authority
      let (hn, pt) :=
        match breakOn [':'] hostPort with
        | some (h, r) => (h, r)
        | none => (hostPort, [])
      if hn.isEmpty then none
      else
        let pathname :=
          if after.take 1 = ['/'] then after.takeWhile (fun c => !(c == '?' || c == '#'))
          else ['/']
        some ⟨ofL (lowerL schemeL), ofL (lowerL hn), ofL pt, ofL pathname⟩
    else none

/-! ## Interception classifier (src/fetchProxy.ts helpers) -/

/-- Embeds isHttps: protocol of the parsed URL is https (false when the
constructor throws). -/
def isHttps (u : String) : Bool :=
  match toURL u with
  | some t => t.scheme == "https"
  | none => false

/-- Embeds hostOf: hostname of the parsed URL, empty string on failure. -/
def hostOf (u : String) : String :=
  match toURL u with
  | some t => t.hostname
  | none => ""

/-- Embeds pathOf: lower-cased pathname of the parsed URL, empty string on
failure. -/
def pathOf (u : String) : String :=
  match toURL u with
  | some t => ofL (lowerL t.pathname.data)
  | none => ""

/-- The manifest path test of isHttpsManifest: the path ends with
/manifest.json or equals it. -/
def manifestPath (p : String) : Bool :=
  suffixEq "/manifest.json".data p.data || p == "/manifest.json"

/-- Embeds isHttpsManifest. -/
def isHttpsManifest (u : String) : Bool := isHttps u && manifestPath (pathOf u)

/-- Embeds isLookup: the lowered path is exactly /lookup. -/
def isLookup (u : String) : Bool := pathOf u == "/lookup"

/-- Tail of the overlay host pattern after the letters run: a dash, a
nonempty digit run, then exactly .bsvb.tech. -/
def overlayAfterLetters : List Char → Bool
  | [] => false
  | c :: r3 =>
    if c = '-' then
      let digits := r3.takeWhile Char.isDigit
      if digits.isEmpty then false else decide (r3.drop digits.length = ".bsvb.tech".data)
    else false

/-- Overlay host pattern after the overlay- head: a nonempty lower-letter
run, then the dash, digits and .bsvb.tech tail. -/
def overlayTail (r1 : List Char) : Bool :=
  let letters := r1.takeWhile isLowerAZ
  if letters.isEmpty then false else overlayAfterLetters (r1.drop letters.length)

/-- The anchored overlay pattern on an already lowered host. -/
def isOverlayHostL (l : List Char) : Bool :=
  if l.take 8 = "overlay-".data then overlayTail (l.drop 8) else false

/-- Embeds isOverlayHost: the case-insensitive anchored regex
overlay-[a-z]+-[0-9]+.bsvb.tech (dots literal) on the host. -/
def isOverlayHost (h : String) : Bool := isOverlayHostL (lowerL h.data)

/-- Backend host pattern on an already lowered host: ends with
.projects.babbage.systems or with .babbage.systems. -/
def isBackendHostL (l : List Char) : Bool :=
  suffixEq ".projects.babbage.systems".data l || suffixEq ".babbage.systems".data l

/-- Embeds isBackendHost: the two case-insensitive end-anchored backend
host regexes. -/
def isBackendHost (h : String) : Bool := isBackendHostL (lowerL h.data)

/-- The three-way classification the patched window.fetch applies to an
outbound URL, in the source's branch order. -/
inductive UrlClass where
  | forcedFailure
  | tunneled
  | passThrough
deriving Repr, DecidableEq

/-- The URL-dependent classification cascade of the patched window.fetch
(the per-call x-mnd-bypass header is handled separately upstream). -/
def classifyUrl (u : String) : UrlClass :=
  if isLookup u && isOverlayHost (hostOf u) then UrlClass.forcedFailure
  else if isHttps u && isLookup u && isBackendHost (hostOf u) then UrlClass.tunneled
  else if isHttpsManifest u then UrlClass.tunneled
  else UrlClass.passThrough

/-! ## Tunnel proxy (src/fetchProxy.ts, fetch patch branches)

The Tauri invoke round trip (proxy_fetch_any / proxy_fetch_manifest) is
modelled as an explicit outcome: either a ProxyResult or a failure.  The
value the patched fetch hands back to its caller is modelled as a
FetchOutcome: a rejected promise simulating a network error, a synthesized
Response, or issuing the original non-tunneled call. -/

structure ProxyResult where
  status : Nat
  headers : List (String × String)
  body : String
deriving Repr, DecidableEq

inductive TunnelOutcome where
  | ok (r : ProxyResult)
  | failed
deriving Repr, DecidableEq

/-- The parsed shape of the soft-fail payload: the body the proxy
serializes is the JSON of this envelope with an empty outputs list. -/
structure SlapEnvelope where
  type : String
  outputs : List String
deriving Repr, DecidableEq

/-- A synthesized Response body: either the raw proxied body string or the
serialized envelope the soft-fail path builds. -/
inductive FetchBody where
  | fromProxy (s : String)
  | envelope (e : SlapEnvelope)
deriving Repr, DecidableEq

inductive FetchOutcome where
  | netError
  | response (status : Nat) (headers : List (String × String)) (body : FetchBody)
  | passOriginal
deriving Repr, DecidableEq

/-- The headers attached by softJsonEmpty. -/
def softHeaders : List (String × String) :=
  [("content-type", "application/json"), ("x-mnd-soft-fail", "true"), ("cache-control", "no-store")]

/-- Embeds softJsonEmpty: a status-200 Response whose body is the empty
output list envelope, tagged with the soft-fail marker header. -/
def softJsonEmpty : FetchOutcome :=
  FetchOutcome.response 200 softHeaders (FetchBody.envelope ⟨"output-list", []⟩)

/-- Embeds the patched window.fetch decision cascade: the bypass header,
the forced overlay failure, the tunneled backend lookup with soft-fail on
tunnel failure, the tunneled manifest with original-fetch fallback on
tunnel failure, and pass-through otherwise. -/
def fetchIntercept (u : String) (bypass : Bool) (tun : TunnelOutcome) : FetchOutcome :=
  if bypass then FetchOutcome.passOriginal
  else if isLookup u && isOverlayHost (hostOf u) then FetchOutcome.netError
  else if isHttps u && isLookup u && isBackendHost (hostOf u) then
    match tun with
    | TunnelOutcome.ok r => FetchOutcome.response r.status r.headers (FetchBody.fromProxy r.body)
    | TunnelOutcome.failed => softJsonEmpty
  else if isHttpsManifest u then
    match tun with
    | TunnelOutcome.ok r => FetchOutcome.response r.status r.headers (FetchBody.fromProxy r.body)
    | TunnelOutcome.failed => FetchOutcome.passOriginal
  else FetchOutcome.passOriginal

/-! ## Background status bridge (src/bridge/httpBridge.ts)

The bridge's persistent scalars (the network mode key and the exchange
rate cache) live in localStorage; a storage cell is its value, its
absence, or a storage-access failure (the catch branches).  The module
globals lastNet and lastNetAt together with the storage cells form the
bridge state.  Response bodies are modelled as the object literals the
source serializes, one constructor per literal. -/

inductive StorageCell where
  | val (s : String)
  | absent
  | fault
deriving Repr, DecidableEq

/-- Embeds readNet: trim and lower the stored string, read test as test
and anything else — absent key, other values, storage failure — as main. -/
def readNet : StorageCell → String
  | StorageCell.val s => if lowerL (trimL s.data) = "test".data then "test" else "main"
  | StorageCell.absent => "main"
  | StorageCell.fault => "main"

def NET_TTL_MS : Nat := 1000
def RATE_TTL_MS : Nat := 60000

/-- A normalized http-request event as handle receives it.  The body is
abstracted to the one field the router reads: parseBody(req.body)?.network
stringified, none when the body is absent or fails to parse. -/
structure HttpRequestEvent where
  method : String
  path : String
  bodyNetwork : Option String
  request_id : Nat
deriving Repr, DecidableEq

/-- The object literals the status bridge serializes into response
bodies. -/
inductive BridgeBody where
  | readyBody
  | networkBody (network : String)
  | invalidNetworkBody
  | setNetOkBody (network : String)
  | rateCachedBody (v : String)
  | rateStubBody
  | statusBody
  | okBody
  | fallbackBody
deriving Repr, DecidableEq

structure TsResponse where
  request_id : Nat
  status : Nat
  body : BridgeBody
deriving Repr, DecidableEq

structure BridgeState where
  lastNet : String
  lastNetAt : Nat
  store : StorageCell
  rate : Option (String × Nat)
deriving Repr, DecidableEq

/-- Embeds the pathname extraction of handle: new URL(req.path,
localhost).pathname with the catch fallback String(req.path or /).  The
query and fragment are stripped; a root-relative path keeps its form and a
bare relative path gains the leading slash the base resolution adds. -/
def pathnameOf (p : String) : String :=
  match breakOn "://".data p.data with
  | some _ =>
    match toURL p with
    | some parts => parts.pathname
    | none => if p = "" then "/" else p
  | none =>
    let core := p.data.takeWhile (fun c => !(c == '?' || c == '#'))
    if core.isEmpty then "/"
    else if core.take 1 = ['/'] then ofL core
    else ofL ('/' :: core)

/-- The requested value the setNetwork handler extracts:
String(body?.network ?? '').toLowerCase(). -/
def requestedNet (bodyNetwork : Option String) : String :=
  ofL (lowerL ((bodyNetwork.getD "").data))

/-- The next network mode the setNetwork handler selects: the requested
value when legal, otherwise the current cached mode. -/
def nextNet (bodyNetwork : Option String) (lastNet : String) : String :=
  if requestedNet bodyNetwork == "test" then "test"
  else if requestedNet bodyNetwork == "main" then "main"
  else lastNet

/-- The exchangerate reply: the cached value while fresh, the stub body
otherwise (readCachedRate yields null on a missing value or a zero
timestamp). -/
def rateResp (id : Nat) (now : Nat) : Option (String × Nat) → TsResponse
  | some (v, ts) =>
    if ts != 0 && now - ts < RATE_TTL_MS then ⟨id, 200, BridgeBody.rateCachedBody v⟩
    else ⟨id, 200, BridgeBody.rateStubBody⟩
  | none => ⟨id, 200, BridgeBody.rateStubBody⟩

/-- Embeds writeNet: try localStorage.setItem(key, n) catch empty — the
store takes the written value unless the setItem call throws, in which
case the failure is swallowed and the store is left unchanged.  Whether
the call throws is environmental, so it is an explicit input here. -/
def writeNet (throws : Bool) (n : String) (c : StorageCell) : StorageCell :=
  if throws then c else StorageCell.val n

/-- Embeds handle: the status bridge router over the five known paths with
its catch-all 200 reply.  Time is the Date.now() value at the call, and
wfail is the environment's verdict on the writeNet storage call issued
during this dispatch (true when localStorage.setItem throws, its failure
swallowed by writeNet's catch — the reply is unaffected). -/
def handle (req : HttpRequestEvent) (now : Nat) (wfail : Bool) (s : BridgeState) :
    TsResponse × BridgeState :=
  if req.method == "GET" && pathnameOf req.path == "/bridge/ready" then
    (⟨req.request_id, 200, BridgeBody.readyBody⟩, s)
  else if (req.method == "GET" || req.method == "POST")
      && pathnameOf req.path == "/getNetwork" then
    if NET_TTL_MS ≤ now - s.lastNetAt then
      (⟨req.request_id, 200, BridgeBody.networkBody (readNet s.store)⟩,
        { s with lastNet := readNet s.store, lastNetAt := now })
    else
      (⟨req.request_id, 200, BridgeBody.networkBody s.lastNet⟩, s)
  else if req.method == "POST" && pathnameOf req.path == "/setNetwork" then
    if nextNet req.bodyNetwork s.lastNet != "main"
        && nextNet req.bodyNetwork s.lastNet != "test" then
      (⟨req.request_id, 400, BridgeBody.invalidNetworkBody⟩, s)
    else
      (⟨req.request_id, 200, BridgeBody.setNetOkBody (nextNet req.bodyNetwork s.lastNet)⟩,
        { s with lastNet := nextNet req.bodyNetwork s.lastNet, lastNetAt := now,
                 store := writeNet wfail (nextNet req.bodyNetwork s.lastNet) s.store })
  else if req.method == "GET" && pathnameOf req.path == "/exchangerate" then
    (rateResp req.request_id now s.rate, s)
  else if (req.method == "GET" || req.method == "POST")
      && pathnameOf req.path == "/getStatus" then
    (⟨req.request_id, 200, BridgeBody.statusBody⟩, s)
  else
    (⟨req.request_id, 200, BridgeBody.okBody⟩, s)

/-- The bridge state the module initializes: lastNetAt zero and lastNet
read through from storage. -/
def initBridgeState (c : StorageCell) : BridgeState :=
  ⟨readNet c, 0, c, none⟩

/-- Runs a sequence of (request, Date.now(), write-fault) events through
handle, collecting the responses. -/
def runBridge : List (HttpRequestEvent × Nat × Bool) → BridgeState →
    List TsResponse × BridgeState
  | [], s => ([], s)
  | (r, t, w) :: rest, s =>
    let p := handle r t w s
    let q := runBridge rest p.2
    (p.1 :: q.1, q.2)

/-- The outcome of one http-request event delivery to the status bridge
listener: a well-parsed payload whose dispatch either completes or throws
somewhere after normalizeReq (JSON.parse succeeded, a later step threw),
or a payload JSON.parse rejects outright (req still null in the catch). -/
inductive BridgePayload where
  | ok (req : HttpRequestEvent) (dispatchThrew : Bool)
  | bad
deriving Repr, DecidableEq

/-- Embeds the startHttpBridge listener body: the try block emits the
routed response; the catch emits the status-200 bridge-fallback reply with
the request id when one was parsed and 0 otherwise. -/
def httpListenerEmits (p : BridgePayload) (now : Nat) (wfail : Bool) (s : BridgeState) :
    List TsResponse :=
  match p with
  | BridgePayload.bad => [⟨0, 200, BridgeBody.fallbackBody⟩]
  | BridgePayload.ok req thr =>
    if thr then [⟨req.request_id, 200, BridgeBody.fallbackBody⟩]
    else [(handle req now wfail s).1]

/-! ## Capability bridge (onWalletReady)

The wallet interface is an external dependency; each operation's outcome
is abstracted to success with a serialized result or failure with a
message (the WERR_REVIEW_ACTIONS special case also replies 400 and is
subsumed by failure for the routing properties below).  The per-handler
JSON.parse of req.body is abstracted to a parse-success flag plus the
message of the thrown parse error. -/

/-- A raw http-request event for the capability bridge: the switch matches
on the raw path and the headers arrive as possibly mixed-case pairs. -/
structure CapEvent where
  request_id : Nat
  path : String
  headers : List (String × String)
deriving Repr, DecidableEq

/-- Header lookup after the listener's normalization: keys lowered, then
Object.fromEntries collapses duplicates with the last occurrence
winning. -/
def getHeader (hs : List (String × String)) (name : String) : Option String :=
  (((hs.map (fun p => (ofL (lowerL p.1.data), p.2))).reverse.find?
      (fun p => p.1 == name)).map (fun p => p.2))

/-- JavaScript truthiness of a header value: absent or empty reads as
absent. -/
def nonEmptyHeader : Option String → Option String
  | some s => if s = "" then none else some s
  | none => none

/-- Embeds the host accessor of a constructed URL: hostname, with the
port appended after a colon when present; none when construction
throws. -/
def urlHost (u : String) : Option String :=
  match toURL u with
  | some t => some (if t.port = "" then t.hostname else t.hostname ++ ":" ++ t.port)
  | none => none

/-- The three ways parseOrigin can leave the handler: a resolved host, the
missing-headers branch (which emits the 400 itself and returns undefined),
or a thrown URL-construction error that escapes to the listener catch. -/
inductive OriginOutcome where
  | resolved (host : String)
  | missing
  | threw
deriving Repr, DecidableEq

/-- Embeds parseOrigin: the origin header parsed as a URL when truthy,
else the originator header upgraded with the http scheme when it lacks
one, else the missing branch. -/
def parseOrigin (hs : List (String × String)) : OriginOutcome :=
  match nonEmptyHeader (getHeader hs "origin") with
  | some o =>
    match urlHost o with
    | some h => OriginOutcome.resolved h
    | none => OriginOutcome.threw
  | none =>
    match nonEmptyHeader (getHeader hs "originator") with
    | some og =>
      let candidate := if containsSeq "://".data og.data then og else "http://" ++ og
      match urlHost candidate with
      | some h => OriginOutcome.resolved h
      | none => OriginOutcome.threw
    | none => OriginOutcome.missing

/-- The 28 paths of the capability router's switch, in source order. -/
def knownWalletPaths : List String :=
  ["/createAction", "/signAction", "/abortAction", "/listActions",
   "/internalizeAction", "/listOutputs", "/relinquishOutput", "/getPublicKey",
   "/revealCounterpartyKeyLinkage", "/revealSpecificKeyLinkage", "/encrypt",
   "/decrypt", "/createHmac", "/verifyHmac", "/createSignature",
   "/verifySignature", "/acquireCertificate", "/listCertificates",
   "/proveCertificate", "/relinquishCertificate", "/discoverByIdentityKey",
   "/discoverByAttributes", "/isAuthenticated", "/waitForAuthentication",
   "/getHeight", "/getHeaderForHeight", "/getNetwork", "/getVersion"]

/-- The handlers that pass a fixed empty argument object and therefore
never JSON.parse the body. -/
def noBodyParsePaths : List String :=
  ["/isAuthenticated", "/waitForAuthentication", "/getHeight", "/getNetwork", "/getVersion"]

/-- Abstract outcome of a wallet capability call. -/
inductive OpOutcome where
  | success (r : String)
  | failure (msg : String)
deriving Repr, DecidableEq

/-- Oracle for the externally-determined parts of one dispatch: whether
JSON.parse(req.body) succeeds, the parse error message when it does not,
and the wallet call's outcome. -/
structure CapOracle where
  bodyParses : Bool
  op : OpOutcome
  parseMsg : String
deriving Repr, DecidableEq

/-- The body literals the capability router serializes. -/
inductive CapBody where
  | resultBody (r : String)
  | errMsgBody (m : String)
  | unknownPathBody (p : String)
  | originRequired
deriving Repr, DecidableEq

structure CapResp where
  request_id : Nat
  status : Nat
  body : CapBody
deriving Repr, DecidableEq

/-- Embeds the switch of the capability router: a known path parses the
body when its handler needs one (a parse failure is caught as a 400 with
the error message), invokes the wallet operation with the resolved origin
— possibly undefined — and replies 200 on success or 400 on failure; an
unknown path replies 404.  The second component records the wallet
invocation: none when no operation ran, some origin when one ran with
that (possibly undefined) originator. -/
def capDispatch (req : CapEvent) (origin : Option String) (o : CapOracle) :
    CapResp × Option (Option String) :=
  if req.path ∈ knownWalletPaths then
    if req.path ∈ noBodyParsePaths || o.bodyParses then
      match o.op with
      | OpOutcome.success r => (⟨req.request_id, 200, CapBody.resultBody r⟩, some origin)
      | OpOutcome.failure m => (⟨req.request_id, 400, CapBody.errMsgBody m⟩, some origin)
    else
      (⟨req.request_id, 400, CapBody.errMsgBody o.parseMsg⟩, none)
  else
    (⟨req.request_id, 404, CapBody.unknownPathBody req.path⟩, none)

/-- One http-request delivery to the capability listener: the payload
either parses to an event or JSON.parse throws. -/
inductive CapPayload where
  | ok (req : CapEvent)
  | bad
deriving Repr, DecidableEq

/-- Embeds the capability listener body on one event, assuming a reliable
emit channel: when parseOrigin resolves, the routed reply is emitted; when
both headers are missing, parseOrigin emits its 400 and control falls
through to the switch, so a second reply follows and the operation still
runs with an undefined origin; when payload parsing or origin URL
construction throws, the catch only logs and nothing is emitted. -/
def capListenerEmits (p : CapPayload) (o : CapOracle) :
    List CapResp × Option (Option String) :=
  match p with
  | CapPayload.bad => ([], none)
  | CapPayload.ok req =>
    match parseOrigin req.headers with
    | OriginOutcome.threw => ([], none)
    | OriginOutcome.missing =>
      let d := capDispatch req none o
      ([⟨req.request_id, 400, CapBody.originRequired⟩, d.1], d.2)
    | OriginOutcome.resolved h =>
      let d := capDispatch req (some h) o
      ([d.1], d.2)

/-! ## Health watchdog (src/mndHeal.ts)

Timers are modelled as explicit durations and outcome streams: a fetch
attempt is summarized by when it would settle and whether it would report
ok; sleeps are recorded as a trace.  The watchdog loop advances an elapsed
clock by the round's duration plus its 1000 ms sleep and is driven with
fuel one greater than the count of 1000 ms steps that fit the budget. -/

def CRITICAL_ENDPOINTS : List String :=
  ["/wallet-proxy/health", "/.well-known/auth/health", "/api/getVersion"]

def RELOAD_AFTER_TOTAL_MS : Nat := 20000
def PER_TRY_TIMEOUT_MS : Nat := 3000
def MAX_RETRIES_PER_URL : Nat := 4

/-- Embeds fetchWithTimeout: the AbortController cancels the attempt once
PER_TRY_TIMEOUT_MS elapses, so a fetch that would settle no earlier than
the timeout fails; otherwise the attempt reports the response's ok. -/
def fetchWithTimeout (resolveAt : Nat) (ok : Bool) : Bool :=
  if PER_TRY_TIMEOUT_MS ≤ resolveAt then false else ok

/-- Embeds pingOnce: a non-ok status throws and the catch returns false,
so the attempt reports exactly the guarded fetch outcome. -/
def pingOnce (resolveAt : Nat) (ok : Bool) : Bool := fetchWithTimeout resolveAt ok

/-- The backoff delay slept after a failed attempt. -/
def backoffDelay (attempt : Nat) : Nat := min (500 * 2 ^ attempt) 4000

/-- Embeds the retryPing while loop from a given attempt index with the
given number of iterations left: outcome is the per-attempt pingOnce
result, and the second component is the trace of sleeps performed. -/
def retryPingFrom (outcome : Nat → Bool) : Nat → Nat → Bool × List Nat
  | 0, _ => (false, [])
  | rem + 1, attempt =>
    if outcome attempt then (true, [])
    else
      let r := retryPingFrom outcome rem (attempt + 1)
      (r.1, backoffDelay attempt :: r.2)

/-- Embeds retryPing: attempts run while the index stays at or below
MAX_RETRIES_PER_URL, so MAX_RETRIES_PER_URL + 1 iterations at most. -/
def retryPing (outcome : Nat → Bool) : Bool × List Nat :=
  retryPingFrom outcome (MAX_RETRIES_PER_URL + 1) 0

/-- One watchdog round probes every critical endpoint in parallel and
succeeds when any retryPing reports true; po gives the pingOnce outcome of
each endpoint's numbered attempt. -/
def roundSuccess (po : Nat → Nat → Bool) : Bool :=
  ((List.range CRITICAL_ENDPOINTS.length).map (fun i => (retryPing (po i)).1)).any id

/-- A watchdog environment: for each loop round, the per-endpoint
per-attempt probe outcomes and the round's wall-clock duration. -/
def WatchEnv : Type := Nat → (Nat → Nat → Bool) × Nat

/-- Embeds the watchdog while loop: while the elapsed time is under the
budget, run a round; a successful round returns with no reload, a failed
round advances the clock by its duration plus the 1000 ms sleep; once the
budget is exhausted the single cache-busting reload is performed.  The
result counts reloads. -/
def watchdogGo (env : WatchEnv) : Nat → Nat → Nat → Nat
  | 0, _, elapsed => if elapsed < RELOAD_AFTER_TOTAL_MS then 0 else 1
  | fuel + 1, round, elapsed =>
    if elapsed < RELOAD_AFTER_TOTAL_MS then
      if roundSuccess (env round).1 then 0
      else watchdogGo env fuel (round + 1) (elapsed + (env round).2 + 1000)
    else 1

/-- The number of reloads one watchdog invocation performs. -/
def watchdogReloads (env : WatchEnv) : Nat :=
  watchdogGo env (RELOAD_AFTER_TOTAL_MS / 1000 + 1) 0 0

/-- The elapsed time at which round k begins, counting each earlier
round's duration and its 1000 ms sleep. -/
def roundStart (env : WatchEnv) : Nat → Nat
  | 0 => 0
  | k + 1 => roundStart env k + (env k).2 + 1000

/-- Legality of a network-mode string: one of the two persisted enum
values. -/
def netLegal (s : String) : Prop := s = "main" ∨ s = "test"

/-! ## Lemmas: suffix reasoning for the host patterns -/

theorem suffixEq_spec {s l : List Char} (h : suffixEq s l = true) :
    s.length ≤ l.length ∧ l.drop (l.length - s.length) = s := by
  unfold suffixEq at h
  have hd : l.drop (l.length - s.length) = s := by
    simpa using h
  refine ⟨?_, hd⟩
  by_contra hlt
  push_neg at hlt
  have h0 : l.length - s.length = 0 := Nat.sub_eq_zero_of_le (Nat.le_of_lt hlt)
  rw [h0, List.drop_zero] at hd
  subst hd
  exact absurd rfl (Nat.ne_of_lt hlt)

theorem drop_to_suffix {l s : List Char} {k : Nat} (hk : l.drop k = s) (hs : s ≠ []) :
    s.length ≤ l.length ∧ l.drop (l.length - s.length) = s := by
  have hlen : s.length = l.length - k := by rw [← hk, List.length_drop]
  have hkle : k ≤ l.length := by
    by_contra hgt
    push_neg at hgt
    have hnil : l.drop k = [] := List.drop_eq_nil_of_le (Nat.le_of_lt hgt)
    exact hs (by rw [← hk, hnil])
  constructor
  · omega
  · have hkk : l.length - s.length = k := by omega
    rw [hkk, hk]

theorem overlayAfterLetters_suffix {r2 : List Char} (h : overlayAfterLetters r2 = true) :
    ∃ k, r2.drop k = ".bsvb.tech".data := by
  cases r2 with
  | nil => simp [overlayAfterLetters] at h
  | cons c r3 =>
    simp only [overlayAfterLetters] at h
    split at h
    · split at h
      · exact absurd h (by simp)
      · exact ⟨(r3.takeWhile Char.isDigit).length + 1,
          by simpa [List.drop_succ_cons] using of_decide_eq_true h⟩
    · exact absurd h (by simp)

theorem overlayTail_suffix {r1 : List Char} (h : overlayTail r1 = true) :
    ∃ k, r1.drop k = ".bsvb.tech".data := by
  simp only [overlayTail] at h
  split at h
  · exact absurd h (by simp)
  · obtain ⟨k, hk⟩ := overlayAfterLetters_suffix h
    exact ⟨(r1.takeWhile isLowerAZ).length + k, by
      rw [← List.drop_drop]
      exact hk⟩

theorem isOverlayHostL_suffix {l : List Char} (h : isOverlayHostL l = true) :
    ∃ k, l.drop k = ".bsvb.tech".data := by
  unfold isOverlayHostL at h
  split at h
  · obtain ⟨k, hk⟩ := overlayTail_suffix h
    exact ⟨8 + k, by rw [← List.drop_drop]; exact hk⟩
  · exact absurd h (by simp)

theorem overlay_backend_disjoint (l : List Char) (ho : isOverlayHostL l = true) :
    isBackendHostL l = false := by
  obtain ⟨k, hk⟩ := isOverlayHostL_suffix ho
  have htech := drop_to_suffix hk (by decide)
  have hlen10 : (".bsvb.tech".data).length = 10 := by decide
  rw [hlen10] at htech
  by_contra hb
  rw [Bool.not_eq_false, isBackendHostL, Bool.or_eq_true] at hb
  rcases hb with h25 | h16
  · have h2 := suffixEq_spec h25
    have hlen25 : (".projects.babbage.systems".data).length = 25 := by decide
    rw [hlen25] at h2
    have hstep : l.drop (l.length - 10) = (l.drop (l.length - 25)).drop 15 := by
      rw [List.drop_drop]
      congr 1
      omega
    rw [h2.2, htech.2] at hstep
    exact absurd hstep (by decide)
  · have h2 := suffixEq_spec h16
    have hlen16 : (".babbage.systems".data).length = 16 := by decide
    rw [hlen16] at h2
    have hstep : l.drop (l.length - 10) = (l.drop (l.length - 16)).drop 6 := by
      rw [List.drop_drop]
      congr 1
      omega
    rw [h2.2, htech.2] at hstep
    exact absurd hstep (by decide)

/-! ## Lemmas: classifier branch interaction -/

theorem isLookup_pathOf {u : String} (h : isLookup u = true) : pathOf u = "/lookup" := by
  simpa [isLookup] using h

theorem manifest_not_lookup {u : String} (hm : isHttpsManifest u = true) :
    isLookup u = false := by
  by_contra hc
  rw [Bool.not_eq_false] at hc
  have hp := isLookup_pathOf hc
  rw [isHttpsManifest, Bool.and_eq_true] at hm
  rw [hp] at hm
  exact absurd hm.2 (by decide)

theorem backend_not_overlay {h : String} (hb : isBackendHost h = true) :
    isOverlayHost h = false := by
  by_contra hc
  rw [Bool.not_eq_false, isOverlayHost] at hc
  rw [isBackendHost, overlay_backend_disjoint _ hc] at hb
  exact absurd hb (by decide)

/-- C3: the interception classifier decides, for every outbound URL
string: an HTTPS URL whose path equals or ends with /manifest.json is
tunneled; a URL with path /lookup on a host matching the overlay pattern
is forced to fail; an HTTPS URL with path /lookup on a backend
(*.babbage.systems) host is tunneled; every other URL — in particular
every malformed URL, for which toURL is none — is pass-through.
Classification is a total function of the URL string, so on no input does
it throw. -/
theorem C3_classifier_decision :
    (∀ u, isHttpsManifest u = true → classifyUrl u = UrlClass.tunneled)
    ∧ (∀ u, isLookup u = true → isOverlayHost (hostOf u) = true →
        classifyUrl u = UrlClass.forcedFailure)
    ∧ (∀ u, isHttps u = true → isLookup u = true → isBackendHost (hostOf u) = true →
        classifyUrl u = UrlClass.tunneled)
    ∧ (∀ u, ¬(isLookup u = true ∧ isOverlayHost (hostOf u) = true) →
        ¬(isHttps u = true ∧ isLookup u = true ∧ isBackendHost (hostOf u) = true) →
        isHttpsManifest u = false → classifyUrl u = UrlClass.passThrough)
    ∧ (∀ u, toURL u = none → classifyUrl u = UrlClass.passThrough) := by
  refine ⟨?_, ?_, ?_, ?_, ?_⟩
  · intro u hm
    have hl := manifest_not_lookup hm
    simp [classifyUrl, hl, hm]
  · intro u h1 h2
    simp [classifyUrl, h1, h2]
  · intro u hh hl hb
    have hov := backend_not_overlay hb
    simp [classifyUrl, hh, hl, hb, hov]
  · intro u h1 h2 h3
    have e1 : (isLookup u && isOverlayHost (hostOf u)) = false := by
      cases hL : isLookup u <;> cases hO : isOverlayHost (hostOf u) <;> simp_all
    have e2 : (isHttps u && isLookup u && isBackendHost (hostOf u)) = false := by
      cases hH : isHttps u <;> cases hL : isLookup u <;>
        cases hB : isBackendHost (hostOf u) <;> simp_all
    simp [classifyUrl, e1, e2, h3]
  · intro u h
    have hp : pathOf u = "" := by simp [pathOf, h]
    have hl : isLookup u = false := by simp [isLookup, hp]
    have hh : isHttps u = false := by simp [isHttps, h]
    simp [classifyUrl, hl, hh, isHttpsManifest]

/-- Witness for C3 at the spec's own concrete URLs. -/
theorem C3_classifier_decision_witness :
    classifyUrl "https://x/manifest.json" = UrlClass.tunneled
    ∧ classifyUrl "https://overlay-eu-1.bsvb.tech/lookup" = UrlClass.forcedFailure
    ∧ classifyUrl "https://foo.projects.babbage.systems/lookup" = UrlClass.tunneled
    ∧ classifyUrl "not a url" = UrlClass.passThrough :=
  ⟨C3_classifier_decision.1 _ (by decide),
   C3_classifier_decision.2.1 _ (by decide) (by decide),
   C3_classifier_decision.2.2.1 _ (by decide) (by decide) (by decide),
   C3_classifier_decision.2.2.2.2 _ (by decide)⟩

/-- C4: when the native-host tunnel round trip fails, a tunneled backend
lookup call resolves to a status-200 response whose body is the empty
output list envelope, tagged with the x-mnd-soft-fail marker header — no
error propagates — while a tunneled manifest call falls back to the
original, non-tunneled call. -/
theorem C4_soft_fail_policy :
    ∀ u, (isHttps u = true → isLookup u = true → isBackendHost (hostOf u) = true →
        fetchIntercept u false TunnelOutcome.failed
          = FetchOutcome.response 200 softHeaders
              (FetchBody.envelope ⟨"output-list", []⟩)
        ∧ ("x-mnd-soft-fail", "true") ∈ softHeaders)
    ∧ (isHttpsManifest u = true →
        fetchIntercept u false TunnelOutcome.failed = FetchOutcome.passOriginal) := by
  intro u
  constructor
  · intro hh hl hb
    have hov := backend_not_overlay hb
    refine ⟨?_, by simp [softHeaders]⟩
    simp [fetchIntercept, hh, hl, hb, hov, softJsonEmpty]
  · intro hm
    have hl := manifest_not_lookup hm
    simp [fetchIntercept, hl, hm]

/-- Witness for C4 at a backend lookup URL and a manifest URL. -/
theorem C4_soft_fail_policy_witness :
    (fetchIntercept "https://a.babbage.systems/lookup" false TunnelOutcome.failed
        = FetchOutcome.response 200 softHeaders
            (FetchBody.envelope ⟨"output-list", []⟩)
      ∧ ("x-mnd-soft-fail", "true") ∈ softHeaders)
    ∧ fetchIntercept "https://x/manifest.json" false TunnelOutcome.failed
        = FetchOutcome.passOriginal :=
  ⟨(C4_soft_fail_policy _).1 (by decide) (by decide) (by decide),
   (C4_soft_fail_policy _).2 (by decide)⟩

/-! ## Lemmas: routers -/

theorem capDispatch_known_status (req : CapEvent) (origin : Option String) (o : CapOracle)
    (h : req.path ∈ knownWalletPaths) :
    (capDispatch req origin o).1.status = 200 ∨ (capDispatch req origin o).1.status = 400 := by
  unfold capDispatch
  rw [if_pos h]
  split
  · cases o.op <;> simp
  · simp

theorem capDispatch_id (req : CapEvent) (origin : Option String) (o : CapOracle) :
    (capDispatch req origin o).1.request_id = req.request_id := by
  unfold capDispatch
  split
  · split
    · cases o.op <;> simp
    · simp
  · simp

theorem handle_not_404 (req : HttpRequestEvent) (now : Nat) (wfail : Bool) (s : BridgeState) :
    (handle req now wfail s).1.status ≠ 404 := by
  unfold handle
  have hrate : ∀ r, (rateResp req.request_id now r).status = 200 := by
    intro r
    rcases r with - | ⟨v, ts⟩
    · simp [rateResp]
    · simp only [rateResp]
      split <;> simp
  split_ifs <;> simp [hrate]

/-- C5: a HostRequest whose path matches no routing-table entry gets, from
the capability router, a 404 reply with the unknown-path body and no
wallet invocation — and 404 arises there only for unknown paths — while
the background status bridge replies 200 with the ok body on unknown
paths and never replies 404 on any input. -/
theorem C5_unknown_paths :
    (∀ (req : CapEvent) (origin : Option String) (o : CapOracle),
        req.path ∉ knownWalletPaths →
        capDispatch req origin o
          = (⟨req.request_id, 404, CapBody.unknownPathBody req.path⟩, none))
    ∧ (∀ (req : CapEvent) (origin : Option String) (o : CapOracle),
        (capDispatch req origin o).1.status = 404 → req.path ∉ knownWalletPaths)
    ∧ (∀ (req : HttpRequestEvent) (now : Nat) (wfail : Bool) (s : BridgeState),
        pathnameOf req.path ∉
            ["/bridge/ready", "/getNetwork", "/setNetwork", "/exchangerate", "/getStatus"] →
        (handle req now wfail s).1 = ⟨req.request_id, 200, BridgeBody.okBody⟩)
    ∧ (∀ (req : HttpRequestEvent) (now : Nat) (wfail : Bool) (s : BridgeState),
        (handle req now wfail s).1.status ≠ 404) := by
  refine ⟨?_, ?_, ?_, handle_not_404⟩
  · intro req origin o h
    unfold capDispatch
    rw [if_neg h]
  · intro req origin o h404
    intro hmem
    rcases capDispatch_known_status req origin o hmem with h | h <;> omega
  · intro req now wfail s h
    simp only [List.mem_cons, List.mem_singleton, not_or] at h
    obtain ⟨h1, h2, h3, h4, h5, -⟩ := h
    have e1 : (pathnameOf req.path == "/bridge/ready") = false := by
      simpa using h1
    have e2 : (pathnameOf req.path == "/getNetwork") = false := by
      simpa using h2
    have e3 : (pathnameOf req.path == "/setNetwork") = false := by
      simpa using h3
    have e4 : (pathnameOf req.path == "/exchangerate") = false := by
      simpa using h4
    have e5 : (pathnameOf req.path == "/getStatus") = false := by
      simpa using h5
    simp [handle, e1, e2, e3, e4, e5]

/-- Witness for C5 at a concrete unknown path on both routers. -/
theorem C5_unknown_paths_witness :
    capDispatch ⟨5, "/nonexistent", []⟩ (some "app.example.com")
        ⟨true, OpOutcome.success "r", "p"⟩
      = (⟨5, 404, CapBody.unknownPathBody "/nonexistent"⟩, none)
    ∧ "/nonexistent" ∉ knownWalletPaths
    ∧ (handle ⟨"GET", "/nonexistent", none, 6⟩ 0 false
        ⟨"main", 0, StorageCell.absent, none⟩).1
      = ⟨6, 200, BridgeBody.okBody⟩
    ∧ (handle ⟨"GET", "/nonexistent", none, 6⟩ 0 false
        ⟨"main", 0, StorageCell.absent, none⟩).1.status
      ≠ 404 :=
  ⟨C5_unknown_paths.1 _ _ _ (by decide),
   C5_unknown_paths.2.1 ⟨5, "/nonexistent", []⟩ (some "app.example.com")
     ⟨true, OpOutcome.success "r", "p"⟩ (by decide),
   C5_unknown_paths.2.2.1 _ 0 false _ (by decide),
   C5_unknown_paths.2.2.2 _ 0 false _⟩

theorem readNet_legal (c : StorageCell) : netLegal (readNet c) := by
  cases c with
  | val s =>
    simp only [readNet]
    split <;> simp [netLegal]
  | absent => simp [readNet, netLegal]
  | fault => simp [readNet, netLegal]

theorem nextNet_legal (b : Option String) (ln : String) (h : netLegal ln) :
    netLegal (nextNet b ln) := by
  unfold nextNet
  split
  · simp [netLegal]
  · split
    · simp [netLegal]
    · exact h

/-- The invalid-network guard of the setNetwork handler is unreachable
whenever the cached mode is legal: the next mode defaults to the cached
one, so it always passes the guard. -/
theorem nextNet_guard_false (b : Option String) (ln : String) (h : netLegal ln) :
    (nextNet b ln != "main" && nextNet b ln != "test") = false := by
  rcases nextNet_legal b ln h with h2 | h2 <;> rw [h2] <;> decide

theorem rateResp_body_not_network (id now : Nat) (r : Option (String × Nat)) (n : String) :
    (rateResp id now r).body ≠ BridgeBody.networkBody n := by
  rcases r with - | ⟨v, ts⟩
  · simp [rateResp]
  · simp only [rateResp]
    split <;> simp

theorem handle_lastNet_legal (req : HttpRequestEvent) (now : Nat) (wfail : Bool)
    (s : BridgeState) (h : netLegal s.lastNet) : netLegal (handle req now wfail s).2.lastNet := by
  unfold handle
  split_ifs <;>
    first
      | exact h
      | exact readNet_legal _
      | exact nextNet_legal _ _ h

theorem handle_networkBody_legal (req : HttpRequestEvent) (now : Nat) (wfail : Bool)
    (s : BridgeState) (n : String) (h : netLegal s.lastNet)
    (hb : (handle req now wfail s).1.body = BridgeBody.networkBody n) : netLegal n := by
  unfold handle at hb
  split_ifs at hb <;>
    first
      | (simp at hb
         done)
      | (exact absurd hb (rateResp_body_not_network _ _ _ _))
      | (simp at hb
         rw [← hb]
         first
           | exact readNet_legal _
           | exact nextNet_legal _ _ h
           | exact h)

theorem runBridge_networkBody_legal :
    ∀ (reqs : List (HttpRequestEvent × Nat × Bool)) (s : BridgeState), netLegal s.lastNet →
      ∀ r ∈ (runBridge reqs s).1, ∀ n, r.body = BridgeBody.networkBody n → netLegal n := by
  intro reqs
  induction reqs with
  | nil =>
    intro s h r hr
    simp [runBridge] at hr
  | cons a rest ih =>
    rcases a with ⟨req, t, w⟩
    intro s h r hr n hbn
    simp only [runBridge, List.mem_cons] at hr
    rcases hr with rfl | hr
    · exact handle_networkBody_legal req t w s n h hbn
    · exact ih _ (handle_lastNet_legal req t w s h) r hr n hbn

/-- C10: reading the persisted network mode is total and always legal —
the stored string reads as test exactly when it trims and lowers to test
and as main in every other case including an absent key or a storage
fault — and consequently every network reply a bridge run produces from
any initial storage carries main or test. -/
theorem C10_readNet_total :
    (∀ v, lowerL (trimL v.data) = "test".data → readNet (StorageCell.val v) = "test")
    ∧ (∀ v, lowerL (trimL v.data) ≠ "test".data → readNet (StorageCell.val v) = "main")
    ∧ readNet StorageCell.absent = "main"
    ∧ readNet StorageCell.fault = "main"
    ∧ (∀ c, readNet c = "main" ∨ readNet c = "test")
    ∧ (∀ (reqs : List (HttpRequestEvent × Nat × Bool)) (c : StorageCell),
        ∀ r ∈ (runBridge reqs (initBridgeState c)).1,
          ∀ n, r.body = BridgeBody.networkBody n → n = "main" ∨ n = "test") := by
  refine ⟨?_, ?_, rfl, rfl, readNet_legal, ?_⟩
  · intro v hv
    simp [readNet, hv]
  · intro v hv
    simp [readNet, hv]
  · intro reqs c r hr n hb
    exact runBridge_networkBody_legal reqs (initBridgeState c) (readNet_legal c) r hr n hb

/-- Witness for C10 at a mixed-case stored value, a corrupt value and a
one-request run over an empty store. -/
theorem C10_readNet_total_witness :
    readNet (StorageCell.val " TEST ") = "test"
    ∧ readNet (StorageCell.val "bogus") = "main"
    ∧ ("main" = "main" ∨ "main" = "test") :=
  ⟨C10_readNet_total.1 _ (by decide),
   C10_readNet_total.2.1 _ (by decide),
   C10_readNet_total.2.2.2.2.2 [(⟨"GET", "/getNetwork", none, 1⟩, 0, false)]
     StorageCell.absent ⟨1, 200, BridgeBody.networkBody "main"⟩ (by decide) "main" rfl⟩

/-- One GET /getNetwork step from a state whose cached mode and stored key
both hold test replies test and preserves both facts, whatever the call
time, the cache age and the write-fault environment (the branch performs
no write). -/
theorem handle_get_test (bn : Option String) (id t la : Nat) (w : Bool)
    (ra : Option (String × Nat)) :
    handle ⟨"GET", "/getNetwork", bn, id⟩ t w ⟨"test", la, StorageCell.val "test", ra⟩
      = (⟨id, 200, BridgeBody.networkBody "test"⟩,
         if NET_TTL_MS ≤ t - la then ⟨"test", t, StorageCell.val "test", ra⟩
         else ⟨"test", la, StorageCell.val "test", ra⟩) := by
  unfold handle
  have hpn : pathnameOf "/getNetwork" = "/getNetwork" := by decide
  rw [hpn]
  have hrd : readNet (StorageCell.val "test") = "test" := by decide
  by_cases hTTL : NET_TTL_MS ≤ t - la <;> simp [hTTL, hrd]

theorem runBridge_get_test :
    ∀ (gets : List (HttpRequestEvent × Nat × Bool)) (s : BridgeState),
      (∀ p ∈ gets, p.1.method = "GET" ∧ p.1.path = "/getNetwork") →
      s.lastNet = "test" → s.store = StorageCell.val "test" →
      ∀ r ∈ (runBridge gets s).1, r.body = BridgeBody.networkBody "test" := by
  intro gets
  induction gets with
  | nil =>
    intro s _ _ _ r hr
    simp [runBridge] at hr
  | cons a rest ih =>
    rcases a with ⟨req, t, w⟩
    intro s hm hln hst r hr
    obtain ⟨hmeth, hpath⟩ := hm (req, t, w) (List.mem_cons_self _ _)
    rcases req with ⟨m, pa, bn, id⟩
    rcases s with ⟨ln, la, st, ra⟩
    simp only at hmeth hpath hln hst
    subst hmeth hpath hln hst
    simp only [runBridge, List.mem_cons, handle_get_test] at hr
    rcases hr with rfl | hr
    · rfl
    · split at hr <;>
        exact ih _ (fun p hp => hm p (List.mem_cons_of_mem _ hp)) rfl rfl r hr

/-- C9 (counterexample to the claim as stated): a POST /setNetwork test
whose localStorage.setItem call throws — the failure swallowed by
writeNet's catch — still replies 200, outwardly a successful set; yet a
GET /getNetwork issued 5000 ms later, well past the 1000 ms mode-cache
TTL, re-reads the unchanged key and replies with the prior value main,
not test. -/
theorem C9_set_then_get_counterexample :
    (handle ⟨"POST", "/setNetwork", some "test", 1⟩ 0 true
        ⟨"main", 0, StorageCell.val "main", none⟩).1.status = 200
    ∧ NET_TTL_MS ≤ 5000 - 0
    ∧ (runBridge [(⟨"GET", "/getNetwork", none, 2⟩, 5000, false)]
        (handle ⟨"POST", "/setNetwork", some "test", 1⟩ 0 true
          ⟨"main", 0, StorageCell.val "main", none⟩).2).1
      = [⟨2, 200, BridgeBody.networkBody "main"⟩] := by decide

/-- C9 (amended): after a POST /setNetwork with network test that replies
200 and whose persist actually reached storage (the localStorage.setItem
call inside writeNet did not throw), every subsequent GET /getNetwork —
whenever it is issued, so in particular once the one-second mode-cache TTL
has elapsed — replies with network test, whatever the later calls' own
write-fault environment.  (When the persist fails silently the 200 reply
still goes out but a post-TTL read re-reads the unchanged key and may
serve the prior value, as the counterexample shows.) -/
theorem C9_set_then_get :
    ∀ (s0 : BridgeState) (id0 t0 : Nat) (gets : List (HttpRequestEvent × Nat × Bool)),
      (∀ p ∈ gets, p.1.method = "GET" ∧ p.1.path = "/getNetwork") →
      (handle ⟨"POST", "/setNetwork", some "test", id0⟩ t0 false s0).1.status = 200
      ∧ ∀ r ∈ (runBridge gets
            (handle ⟨"POST", "/setNetwork", some "test", id0⟩ t0 false s0).2).1,
          r.body = BridgeBody.networkBody "test" := by
  intro s0 id0 t0 gets hm
  have hset : handle ⟨"POST", "/setNetwork", some "test", id0⟩ t0 false s0
      = (⟨id0, 200, BridgeBody.setNetOkBody "test"⟩,
         { s0 with lastNet := "test", lastNetAt := t0, store := StorageCell.val "test" }) := by
    unfold handle
    have hpn : pathnameOf "/setNetwork" = "/setNetwork" := by decide
    rw [hpn]
    have hnx : nextNet (some "test") s0.lastNet = "test" := by
      have hreq : requestedNet (some "test") = "test" := by decide
      simp [nextNet, hreq]
    simp [hnx, writeNet]
  rw [hset]
  exact ⟨rfl, runBridge_get_test gets _ hm rfl rfl⟩

/-- Witness for C9: a successfully persisted set to test at time 0
followed by one read after the TTL. -/
theorem C9_set_then_get_witness :
    (handle ⟨"POST", "/setNetwork", some "test", 1⟩ 0 false
        ⟨"main", 0, StorageCell.absent, none⟩).1.status = 200
    ∧ ∀ r ∈ (runBridge [(⟨"GET", "/getNetwork", none, 2⟩, 5000, false)]
        (handle ⟨"POST", "/setNetwork", some "test", 1⟩ 0 false
          ⟨"main", 0, StorageCell.absent, none⟩).2).1,
        r.body = BridgeBody.networkBody "test" :=
  C9_set_then_get ⟨"main", 0, StorageCell.absent, none⟩ 1 0
    [(⟨"GET", "/getNetwork", none, 2⟩, 5000, false)]
    (by decide)

/-- C2 (code bug evaluation): a POST /setNetwork whose body requests the
illegal value bogus does not take the 400 invalid_network branch — the
next mode defaults to the cached mode, which is always legal, so the
guard is dead — and instead replies 200 with the current mode while
rewriting the persisted key (here from absent to main). -/
theorem C2_invalid_network_dead_branch :
    handle ⟨"POST", "/setNetwork", some "bogus", 9⟩ 5000 false
        ⟨"main", 0, StorageCell.absent, none⟩
      = (⟨9, 200, BridgeBody.setNetOkBody "main"⟩,
         ⟨"main", 5000, StorageCell.val "main", none⟩) := by decide

/-! ## Response correlator properties -/

theorem handle_request_id (req : HttpRequestEvent) (now : Nat) (wfail : Bool)
    (s : BridgeState) : (handle req now wfail s).1.request_id = req.request_id := by
  unfold handle
  have hrate : ∀ r, (rateResp req.request_id now r).request_id = req.request_id := by
    intro r
    rcases r with - | ⟨v, ts⟩
    · simp [rateResp]
    · simp only [rateResp]
      split <;> simp
  split_ifs <;> simp [hrate]

/-- C1 (counterexample to the claim as stated): one single HostRequest for
which the capability bridge emits two HostResponses, not one — with both
origin and originator headers absent, parseOrigin emits its 400 reply and
the switch still emits the routed reply (here the 404 for the unknown
path). -/
theorem C1_exactly_one_response_counterexample :
    (capListenerEmits (CapPayload.ok ⟨5, "/nope", []⟩)
        ⟨true, OpOutcome.success "r", "p"⟩).1.length = 2
    ∧ (capListenerEmits (CapPayload.ok ⟨5, "/nope", []⟩)
        ⟨true, OpOutcome.success "r", "p"⟩).1
      = [⟨5, 400, CapBody.originRequired⟩, ⟨5, 404, CapBody.unknownPathBody "/nope"⟩] := by
  exact ⟨by decide, by decide⟩

/-- C1 (amended): the exactly-one-response invariant holds for the
background status bridge — one reply per event, carrying the parsed
request id, with the status-200 bridge-fallback body whenever dispatch
throws after parsing — and for the capability bridge only on events whose
origin resolves, where the single routed reply carries the request id.
(The capability bridge emits zero replies when payload parsing or origin
URL construction throws, and two when both origin headers are absent.) -/
theorem C1_one_response_per_request :
    (∀ (p : BridgePayload) (now : Nat) (wfail : Bool) (s : BridgeState),
        (httpListenerEmits p now wfail s).length = 1)
    ∧ (∀ (req : HttpRequestEvent) (thr : Bool) (now : Nat) (wfail : Bool) (s : BridgeState),
        ∀ r ∈ httpListenerEmits (BridgePayload.ok req thr) now wfail s,
          r.request_id = req.request_id)
    ∧ (∀ (req : HttpRequestEvent) (now : Nat) (wfail : Bool) (s : BridgeState),
        httpListenerEmits (BridgePayload.ok req true) now wfail s
          = [⟨req.request_id, 200, BridgeBody.fallbackBody⟩])
    ∧ (∀ (req : CapEvent) (o : CapOracle) (h : String),
        parseOrigin req.headers = OriginOutcome.resolved h →
        (capListenerEmits (CapPayload.ok req) o).1.length = 1
        ∧ ∀ r ∈ (capListenerEmits (CapPayload.ok req) o).1,
            r.request_id = req.request_id) := by
  refine ⟨?_, ?_, ?_, ?_⟩
  · intro p now wfail s
    rcases p with ⟨req, thr⟩ | -
    · cases thr <;> simp [httpListenerEmits]
    · simp [httpListenerEmits]
  · intro req thr now wfail s r hr
    cases thr with
    | false =>
      simp only [httpListenerEmits, Bool.false_eq_true, if_false, List.mem_singleton] at hr
      rw [hr]
      exact handle_request_id req now wfail s
    | true =>
      simp only [httpListenerEmits, if_true, List.mem_singleton] at hr
      rw [hr]
  · intro req now wfail s
    simp [httpListenerEmits]
  · intro req o h hres
    simp only [capListenerEmits, hres]
    refine ⟨rfl, ?_⟩
    intro r hr
    simp only [List.mem_singleton] at hr
    rw [hr]
    exact capDispatch_id req (some h) o

/-- Witness for C1 (amended) at a parsed event with a throwing dispatch
and at a capability event with a resolvable origin header. -/
theorem C1_one_response_per_request_witness :
    (httpListenerEmits (BridgePayload.ok ⟨"GET", "/getStatus", none, 3⟩ true) 0 false
        ⟨"main", 0, StorageCell.absent, none⟩).length = 1
    ∧ httpListenerEmits (BridgePayload.ok ⟨"GET", "/getStatus", none, 3⟩ true) 0 false
        ⟨"main", 0, StorageCell.absent, none⟩
      = [⟨3, 200, BridgeBody.fallbackBody⟩]
    ∧ (capListenerEmits
        (CapPayload.ok ⟨4, "/getVersion", [("origin", "https://app.example.com/x")]⟩)
        ⟨true, OpOutcome.success "v", "m"⟩).1.length = 1 :=
  ⟨C1_one_response_per_request.1 _ 0 false _,
   C1_one_response_per_request.2.2.1 _ 0 false _,
   (C1_one_response_per_request.2.2.2 ⟨4, "/getVersion", [("origin", "https://app.example.com/x")]⟩
     ⟨true, OpOutcome.success "v", "m"⟩ "app.example.com" (by decide)).1⟩

/-- C6 (code bug evaluation): a capability request with neither origin nor
originator header does get the 400 Origin-header-required reply, but the
handler does not stop — the wallet operation still runs, with an undefined
origin, and its reply is emitted as well (here a 200 from getVersion). -/
theorem C6_origin_required_still_invokes :
    capListenerEmits (CapPayload.ok ⟨7, "/getVersion", []⟩)
        ⟨true, OpOutcome.success "v", "m"⟩
      = ([⟨7, 400, CapBody.originRequired⟩, ⟨7, 200, CapBody.resultBody "v"⟩], some none) := by
  decide

/-! ## Health watchdog properties -/

theorem retryPingFrom_all_fail (outcome : Nat → Bool) (h : ∀ k, outcome k = false) :
    ∀ rem a, (retryPingFrom outcome rem a).1 = false := by
  intro rem
  induction rem with
  | zero => intro a; rfl
  | succ n ih =>
    intro a
    simp [retryPingFrom, h a, ih (a + 1)]

theorem retryPing_all_fail (outcome : Nat → Bool) (h : ∀ k, outcome k = false) :
    (retryPing outcome).1 = false :=
  retryPingFrom_all_fail outcome h _ 0

theorem roundSuccess_all_fail (po : Nat → Nat → Bool) (h : ∀ i k, po i k = false) :
    roundSuccess po = false := by
  have hi : ∀ i, (retryPing (po i)).1 = false := fun i => retryPing_all_fail (po i) (h i)
  simp [roundSuccess, hi]

theorem watchdogGo_all_fail (env : WatchEnv) (h : ∀ r, roundSuccess (env r).1 = false) :
    ∀ fuel round elapsed, RELOAD_AFTER_TOTAL_MS ≤ elapsed + fuel * 1000 →
      watchdogGo env fuel round elapsed = 1 := by
  intro fuel
  induction fuel with
  | zero =>
    intro round elapsed hb
    simp only [Nat.zero_mul, Nat.add_zero] at hb
    simp [watchdogGo, Nat.not_lt.mpr hb]
  | succ n ih =>
    intro round elapsed hb
    by_cases he : elapsed < RELOAD_AFTER_TOTAL_MS
    · simp only [watchdogGo, if_pos he, h round, Bool.false_eq_true, if_false]
      exact ih (round + 1) (elapsed + (env round).2 + 1000) (by
        have : RELOAD_AFTER_TOTAL_MS ≤ elapsed + (n + 1) * 1000 := hb
        omega)
    · simp [watchdogGo, he]

theorem roundStart_le_roundStart (env : WatchEnv) :
    ∀ a b, a ≤ b → roundStart env a ≤ roundStart env b := by
  intro a b hab
  induction b with
  | zero =>
    have : a = 0 := Nat.le_zero.mp hab
    simp [this]
  | succ n ih =>
    rcases Nat.lt_or_ge a (n + 1) with hl | hg
    · have h1 := ih (Nat.lt_succ_iff.mp hl)
      calc roundStart env a ≤ roundStart env n := h1
        _ ≤ roundStart env (n + 1) := by simp [roundStart]; omega
    · have : a = n + 1 := Nat.le_antisymm hab hg
      simp [this]

theorem roundStart_lower_bound (env : WatchEnv) : ∀ k, 1000 * k ≤ roundStart env k := by
  intro k
  induction k with
  | zero => simp [roundStart]
  | succ n ih =>
    simp only [roundStart]
    omega

theorem watchdogGo_success (env : WatchEnv) (k : Nat)
    (hfail : ∀ j, j < k → roundSuccess (env j).1 = false)
    (hsucc : roundSuccess (env k).1 = true)
    (hbudget : roundStart env k < RELOAD_AFTER_TOTAL_MS) :
    ∀ fuel round, round ≤ k → k - round < fuel →
      watchdogGo env fuel round (roundStart env round) = 0 := by
  intro fuel
  induction fuel with
  | zero =>
    intro round _ hf
    omega
  | succ n ih =>
    intro round hrk hf
    have he : roundStart env round < RELOAD_AFTER_TOTAL_MS :=
      Nat.lt_of_le_of_lt (roundStart_le_roundStart env round k hrk) hbudget
    by_cases heq : round = k
    · subst heq
      simp [watchdogGo, he, hsucc]
    · have hlt : round < k := Nat.lt_of_le_of_ne hrk heq
      simp only [watchdogGo, if_pos he, hfail round hlt, Bool.false_eq_true, if_false]
      have hstep : roundStart env round + (env round).2 + 1000 = roundStart env (round + 1) := rfl
      rw [hstep]
      exact ih (round + 1) hlt (by omega)

/-- C7: a watchdog run over critical-endpoint probes that fail permanently
performs exactly one reload, issued only once the roughly 20-second total
budget is exhausted; a run in which some round's probes report success
while the budget still has room — every earlier round having failed —
performs no reload at all. -/
theorem C7_watchdog_single_reload :
    ∀ env : WatchEnv,
      ((∀ r i k, (env r).1 i k = false) → watchdogReloads env = 1)
      ∧ (∀ k, (∀ j, j < k → roundSuccess (env j).1 = false) →
          roundSuccess (env k).1 = true →
          roundStart env k < RELOAD_AFTER_TOTAL_MS →
          watchdogReloads env = 0) := by
  intro env
  constructor
  · intro h
    exact watchdogGo_all_fail env
      (fun r => roundSuccess_all_fail (env r).1 (h r)) _ 0 0 (by decide)
  · intro k hfail hsucc hbudget
    have hk : 1000 * k ≤ roundStart env k := roundStart_lower_bound env k
    have hkb : k < RELOAD_AFTER_TOTAL_MS / 1000 + 1 := by
      have : RELOAD_AFTER_TOTAL_MS = 20000 := rfl
      omega
    have h0 : roundStart env 0 = 0 := rfl
    have := watchdogGo_success env k hfail hsucc hbudget
      (RELOAD_AFTER_TOTAL_MS / 1000 + 1) 0 (Nat.zero_le k) (by omega)
    rw [h0] at this
    exact this

/-- Witness for C7: an environment whose probes always fail reloads once;
an environment whose first round succeeds immediately reloads never. -/
theorem C7_watchdog_single_reload_witness :
    watchdogReloads (fun _ => (fun _ _ => false, 0)) = 1
    ∧ watchdogReloads (fun _ => (fun _ _ => true, 0)) = 0 :=
  ⟨(C7_watchdog_single_reload _).1 (fun _ _ _ => rfl),
   (C7_watchdog_single_reload _).2 0 (fun j hj => absurd hj (by omega))
     (by decide) (by decide)⟩

theorem retryPingFrom_length (outcome : Nat → Bool) :
    ∀ rem a, (retryPingFrom outcome rem a).2.length ≤ rem := by
  intro rem
  induction rem with
  | zero => intro a; simp [retryPingFrom]
  | succ n ih =>
    intro a
    by_cases h : outcome a = true
    · simp [retryPingFrom, h]
    · rw [Bool.not_eq_true] at h
      simp only [retryPingFrom, h, Bool.false_eq_true, if_false, List.length_cons]
      exact Nat.succ_le_succ (ih (a + 1))

theorem retryPingFrom_all_fail_trace (outcome : Nat → Bool) (h : ∀ k, outcome k = false) :
    ∀ rem a, (retryPingFrom outcome rem a).2 = (List.range' a rem).map backoffDelay := by
  intro rem
  induction rem with
  | zero => intro a; rfl
  | succ n ih =>
    intro a
    simp only [retryPingFrom, h a, Bool.false_eq_true, if_false, List.range'_succ,
      List.map_cons]
    rw [ih (a + 1)]

/-- C8: within the watchdog each endpoint probe is retried a bounded
number of times — at most MAX_RETRIES_PER_URL + 1 attempts — the delay
slept after failed attempt k is min(500·2^k, 4000) ms, concretely 500 ms,
1 s, 2 s and then capped at 4 s from the third retry on, and each attempt
is abandoned as failed once the 3-second per-attempt timeout cancels
it. -/
theorem C8_retry_backoff_timeout :
    (∀ k, backoffDelay k = min (500 * 2 ^ k) 4000)
    ∧ (backoffDelay 0 = 500 ∧ backoffDelay 1 = 1000 ∧ backoffDelay 2 = 2000
        ∧ ∀ k, 3 ≤ k → backoffDelay k = 4000)
    ∧ (∀ outcome, (retryPing outcome).2.length ≤ MAX_RETRIES_PER_URL + 1)
    ∧ (∀ outcome, (∀ k, outcome k = false) →
        (retryPing outcome).2 = [500, 1000, 2000, 4000, 4000])
    ∧ PER_TRY_TIMEOUT_MS = 3000
    ∧ (∀ t ok, PER_TRY_TIMEOUT_MS ≤ t → fetchWithTimeout t ok = false) := by
  refine ⟨fun _ => rfl, ⟨rfl, rfl, rfl, ?_⟩, ?_, ?_, rfl, ?_⟩
  · intro k hk
    have h8 : 4000 ≤ 500 * 2 ^ k := by
      have : (2 : Nat) ^ 3 ≤ 2 ^ k := Nat.pow_le_pow_right (by omega) hk
      omega
    simpa [backoffDelay] using Nat.min_eq_right h8
  · intro outcome
    exact retryPingFrom_length outcome _ 0
  · intro outcome h
    have := retryPingFrom_all_fail_trace outcome h (MAX_RETRIES_PER_URL + 1) 0
    rw [retryPing, this]
    decide
  · intro t ok ht
    simp [fetchWithTimeout, ht]

/-- Witness for C8 at the capped index, an always-failing probe and a
timed-out attempt. -/
theorem C8_retry_backoff_timeout_witness :
    backoffDelay 5 = 4000
    ∧ (retryPing (fun _ => false)).2.length ≤ MAX_RETRIES_PER_URL + 1
    ∧ (retryPing (fun _ => false)).2 = [500, 1000, 2000, 4000, 4000]
    ∧ fetchWithTimeout 3000 true = false :=
  ⟨C8_retry_backoff_timeout.2.1.2.2.2 5 (by omega),
   C8_retry_backoff_timeout.2.2.1 (fun _ => false),
   C8_retry_backoff_timeout.2.2.2.1 (fun _ => false) (fun _ => rfl),
   C8_retry_backoff_timeout.2.2.2.2.2 3000 true (by decide)⟩
